import Mathlib

/-!
A shallow embedding of the real-time chat subsystem of the weoucbookcycle
backend (Go): the unread-counter keys kept in Redis, the message ingestion
pipeline of the chat service, the websocket connection registry, and the
liveness sweep, together with proofs settling the specification claims
about them.

Sources embedded here:
- services/chat_service.go : SendMessage, processMessageDirect,
  processAfterSend, GetMessages, MarkAsRead, GetUnreadCount,
  SetUserOnline / SetUserOffline.
- controllers/chat_controller.go : HandleWebSocket, heartbeatCheck,
  sendMessageToUser.
- websocket package (hub) : HandleConnection, heartbeatChecker.
-/

namespace BookCycle

set_option maxRecDepth 8000

/-- User identifiers are strings (UUIDs in the Go source). -/
abbrev UserID := String

/-- Chat (conversation) identifiers are strings (UUIDs in the Go source). -/
abbrev ChatID := String

/-- Seven days in seconds: the TTL passed to Redis Expire on every unread key
(7 * 24 * time.Hour in processAfterSend step 3 and in sendMessageToUser). -/
def sevenDays : Nat := 7 * 24 * 60 * 60

/-- The Redis keys of the form unread:u:c, modelled as a table from the
(recipient, chat) pair to the stored count and the absolute expiry deadline of
the key, in seconds. A key whose deadline has passed behaves as absent, which
is how the TTL-capable store expires entries. -/
structure UnreadStore where
  tbl : UserID → ChatID → Option (Int × Nat)

/-- The store with no unread keys. -/
def UnreadStore.init : UnreadStore := ⟨fun _ _ => none⟩

/-- Redis read of unread:u:c at time t: a key whose deadline has passed reads
as absent. -/
def UnreadStore.live (s : UnreadStore) (u : UserID) (c : ChatID) (t : Nat) :
    Option (Int × Nat) :=
  match s.tbl u c with
  | some (n, d) => if t < d then some (n, d) else none
  | none => none

/-- The unread count visible at time t: the live value, and zero when the key
is absent. GetChats reads the key with a zero default and GetUnreadCount lists
only keys that exist, so an absent key is an unread count of zero in both. -/
def UnreadStore.getCount (s : UnreadStore) (u : UserID) (c : ChatID) (t : Nat) : Int :=
  match s.live u c t with
  | some (n, _) => n
  | none => 0

/-- RedisClient.Incr on unread:u:c followed by RedisClient.Expire of the same
key to seven days, executed at time t, exactly as processAfterSend step 3 (and
the controller's sendMessageToUser) performs per receiving participant: Incr
creates an absent or expired key at one, otherwise adds one, and the Expire
call then moves the deadline to t plus seven days. -/
def UnreadStore.incrExpire (s : UnreadStore) (u : UserID) (c : ChatID) (t : Nat) :
    UnreadStore :=
  let n : Int :=
    match s.live u c t with
    | some (k, _) => k
    | none => 0
  ⟨fun u' c' => if u' = u ∧ c' = c then some (n + 1, t + sevenDays) else s.tbl u' c'⟩

/-- RedisClient.Del on unread:u:c, as performed by MarkAsRead step 2. -/
def UnreadStore.del (s : UnreadStore) (u : UserID) (c : ChatID) : UnreadStore :=
  ⟨fun u' c' => if u' = u ∧ c' = c then none else s.tbl u' c'⟩

/-- The events of the unread-counter subsystem: a message delivered to the
participants of a chat (processAfterSend step 3) and a read-acknowledgement
(MarkAsRead step 2). Delivery timestamps are in seconds. -/
inductive CounterEvent where
  | deliver (chat : ChatID) (sender : UserID) (parts : List UserID) (t : Nat)
  | reset (u : UserID) (chat : ChatID)
  deriving DecidableEq

/-- The loop of processAfterSend step 3: increment (and re-expire) the unread
key of every participant of the chat other than the sender. -/
def processAfterSendUnread (s : UnreadStore) (chat : ChatID) (sender : UserID)
    (parts : List UserID) (t : Nat) : UnreadStore :=
  parts.foldl (fun st p => if p ≠ sender then st.incrExpire p chat t else st) s

/-- One event of the counter subsystem applied to the store. -/
def stepCounter (s : UnreadStore) : CounterEvent → UnreadStore
  | .deliver chat sender parts t => processAfterSendUnread s chat sender parts t
  | .reset u chat => s.del u chat

/-- A whole trace of counter events applied to the store, oldest first. -/
def runCounter (s : UnreadStore) : List CounterEvent → UnreadStore
  | [] => s
  | e :: evs => runCounter (stepCounter s e) evs

/-- Written from the specification's words, for comparison with the store: the
number of messages in chat c with a sender different from u delivered since
the last read-acknowledgement for (u, c), starting from an accumulator n. -/
def specUnreadFrom (u : UserID) (c : ChatID) (n : Int) : List CounterEvent → Int
  | [] => n
  | .deliver chat sender _ _ :: evs =>
      specUnreadFrom u c (if chat = c ∧ sender ≠ u then n + 1 else n) evs
  | .reset u' chat :: evs =>
      specUnreadFrom u c (if u' = u ∧ chat = c then 0 else n) evs

/-- The specification's count of unread messages for (u, c) over a trace. -/
def specUnread (u : UserID) (c : ChatID) (evs : List CounterEvent) : Int :=
  specUnreadFrom u c 0 evs

/-- Deliveries to chat c are well-formed for u and fall inside the window
from a to a + w: u is listed among the distinct participants and the delivery
time lies within the window. Events of other chats are unconstrained. -/
def eventOk (u : UserID) (c : ChatID) (a w : Nat) : CounterEvent → Prop
  | .deliver chat _ parts t => chat = c → a ≤ t ∧ t ≤ a + w ∧ u ∈ parts ∧ parts.Nodup
  | .reset _ _ => True

instance eventOk.decidable (u : UserID) (c : ChatID) (a w : Nat) :
    DecidablePred (eventOk u c a w) := fun e => by
  cases e with
  | deliver chat sender parts t => unfold eventOk; infer_instance
  | reset u' chat => unfold eventOk; infer_instance

theorem UnreadStore.incrExpire_tbl_self (s : UnreadStore) (u : UserID) (c : ChatID)
    (t : Nat) :
    (s.incrExpire u c t).tbl u c = some (s.getCount u c t + 1, t + sevenDays) := by
  cases hl : s.live u c t with
  | none => simp [UnreadStore.incrExpire, UnreadStore.getCount, hl]
  | some p => simp [UnreadStore.incrExpire, UnreadStore.getCount, hl]

theorem UnreadStore.incrExpire_tbl_other (s : UnreadStore) (u : UserID) (c : ChatID)
    (t : Nat) (u' : UserID) (c' : ChatID) (h : ¬(u' = u ∧ c' = c)) :
    (s.incrExpire u c t).tbl u' c' = s.tbl u' c' := by
  simp [UnreadStore.incrExpire, h]

theorem UnreadStore.del_tbl_self (s : UnreadStore) (u : UserID) (c : ChatID) :
    (s.del u c).tbl u c = none := by
  simp [UnreadStore.del]

theorem UnreadStore.del_tbl_other (s : UnreadStore) (u : UserID) (c : ChatID)
    (u' : UserID) (c' : ChatID) (h : ¬(u' = u ∧ c' = c)) :
    (s.del u c).tbl u' c' = s.tbl u' c' := by
  simp [UnreadStore.del, h]

theorem UnreadStore.live_congr (s s' : UnreadStore) (u : UserID) (c : ChatID) (t : Nat)
    (h : s.tbl u c = s'.tbl u c) : s.live u c t = s'.live u c t := by
  simp [UnreadStore.live, h]

theorem UnreadStore.getCount_congr (s s' : UnreadStore) (u : UserID) (c : ChatID) (t : Nat)
    (h : s.tbl u c = s'.tbl u c) : s.getCount u c t = s'.getCount u c t := by
  unfold UnreadStore.getCount
  rw [UnreadStore.live_congr s s' u c t h]

/-- The delivery fold leaves the key of (u, c) alone when u is not a receiving
participant of that delivery or the delivery targets another chat. -/
theorem processAfterSendUnread_tbl_other (chat : ChatID) (sender : UserID)
    (parts : List UserID) (t : Nat) (u : UserID) (c : ChatID)
    (h : (u ∈ parts → u = sender) ∨ c ≠ chat) :
    ∀ s : UnreadStore, (processAfterSendUnread s chat sender parts t).tbl u c = s.tbl u c := by
  induction parts with
  | nil => intro s; rfl
  | cons p ps ih =>
      intro s
      have hrest : (u ∈ ps → u = sender) ∨ c ≠ chat := by
        rcases h with h | h
        · exact Or.inl fun hm => h (List.mem_cons_of_mem _ hm)
        · exact Or.inr h
      show (processAfterSendUnread (if p ≠ sender then s.incrExpire p chat t else s)
              chat sender ps t).tbl u c = s.tbl u c
      rw [ih hrest]
      by_cases hp : p ≠ sender
      · simp only [if_pos hp]
        apply UnreadStore.incrExpire_tbl_other
        rintro ⟨rfl, rfl⟩
        rcases h with h | h
        · exact hp (h (List.mem_cons_self _ _))
        · exact h rfl
      · simp [hp]

/-- The delivery fold increments the key of a receiving participant u exactly
once and re-stamps its deadline to t plus seven days. -/
theorem processAfterSendUnread_tbl_self (chat : ChatID) (sender : UserID)
    (parts : List UserID) (t : Nat) (u : UserID)
    (hu : u ∈ parts) (hnd : parts.Nodup) (hne : u ≠ sender) :
    ∀ s : UnreadStore,
      (processAfterSendUnread s chat sender parts t).tbl u chat
        = some (s.getCount u chat t + 1, t + sevenDays) := by
  induction parts with
  | nil => cases hu
  | cons p ps ih =>
      intro s
      rcases List.mem_cons.mp hu with rfl | hu'
      · have hnotin : u ∉ ps := (List.nodup_cons.mp hnd).1
        show (processAfterSendUnread (if u ≠ sender then s.incrExpire u chat t else s)
                chat sender ps t).tbl u chat = _
        rw [processAfterSendUnread_tbl_other chat sender ps t u chat
              (Or.inl fun hm => absurd hm hnotin)]
        simp only [if_pos hne]
        exact s.incrExpire_tbl_self u chat t
      · have hnd' : ps.Nodup := (List.nodup_cons.mp hnd).2
        have hpu : p ≠ u := by
          rintro rfl
          exact (List.nodup_cons.mp hnd).1 hu'
        show (processAfterSendUnread (if p ≠ sender then s.incrExpire p chat t else s)
                chat sender ps t).tbl u chat = _
        rw [ih hu' hnd']
        have htbl : (if p ≠ sender then s.incrExpire p chat t else s).tbl u chat
            = s.tbl u chat := by
          by_cases hp : p ≠ sender
          · simp only [if_pos hp]
            exact s.incrExpire_tbl_other p chat t u chat (fun hh => hpu hh.1.symm)
          · simp [hp]
        rw [UnreadStore.getCount_congr _ s u chat t htbl]


/-- Invariant carried along a counter trace for a fixed key (u, c) under the
window hypothesis: the stored key is absent exactly when the specification
count is zero, and otherwise holds the specification count with a deadline no
earlier than a + sevenDays. -/
theorem runCounter_invariant (u : UserID) (c : ChatID) (a w : Nat) (hw : w < sevenDays)
    (evs : List CounterEvent) :
    ∀ (s : UnreadStore) (n : Int),
      (∀ e ∈ evs, eventOk u c a w e) →
      ((n = 0 ∧ s.tbl u c = none) ∨
        (0 < n ∧ ∃ d, s.tbl u c = some (n, d) ∧ a + sevenDays ≤ d)) →
      ((specUnreadFrom u c n evs = 0 ∧ (runCounter s evs).tbl u c = none) ∨
        (0 < specUnreadFrom u c n evs ∧
          ∃ d, (runCounter s evs).tbl u c = some (specUnreadFrom u c n evs, d) ∧
            a + sevenDays ≤ d)) := by
  induction evs with
  | nil => intro s n _ hinv; exact hinv
  | cons e evs ih =>
      intro s n hok hinv
      have hokhd : eventOk u c a w e := hok e (List.mem_cons_self _ _)
      have hoktl : ∀ e' ∈ evs, eventOk u c a w e' := fun e' he' =>
        hok e' (List.mem_cons_of_mem _ he')
      cases e with
      | reset u' chat =>
          simp only [runCounter, stepCounter, specUnreadFrom]
          apply ih (s.del u' chat) _ hoktl
          by_cases hkey : u' = u ∧ chat = c
          · rw [if_pos hkey]
            refine Or.inl ⟨rfl, ?_⟩
            rcases hkey with ⟨rfl, rfl⟩
            exact s.del_tbl_self u' chat
          · rw [if_neg hkey]
            have htbl : (s.del u' chat).tbl u c = s.tbl u c := by
              apply s.del_tbl_other
              rintro ⟨rfl, rfl⟩
              exact hkey ⟨rfl, rfl⟩
            rw [htbl]
            exact hinv
      | deliver chat sender parts t =>
          simp only [runCounter, stepCounter, specUnreadFrom]
          apply ih (processAfterSendUnread s chat sender parts t) _ hoktl
          by_cases hc : chat = c
          · subst hc
            rcases hokhd rfl with ⟨hat, htw, hupart, hnd⟩
            by_cases hsu : sender ≠ u
            · have hcond : chat = chat ∧ sender ≠ u := ⟨rfl, hsu⟩
              rw [if_pos hcond]
              have hself := processAfterSendUnread_tbl_self chat sender parts t u
                hupart hnd (Ne.symm hsu) s
              rcases hinv with ⟨hn0, htbl⟩ | ⟨hnpos, d, htbl, hd⟩
              · refine Or.inr ⟨by omega, t + sevenDays, ?_, by omega⟩
                rw [hself]
                simp [UnreadStore.getCount, UnreadStore.live, htbl, hn0]
              · refine Or.inr ⟨by omega, t + sevenDays, ?_, by omega⟩
                have htd : t < d := by omega
                have hlive : s.live u chat t = some (n, d) := by
                  simp [UnreadStore.live, htbl, htd]
                rw [hself]
                simp [UnreadStore.getCount, hlive]
            · have hcond : ¬(chat = chat ∧ sender ≠ u) := fun hh => hsu hh.2
              rw [if_neg hcond]
              have hu_eq : u = sender := (not_not.mp hsu).symm
              have htbl : (processAfterSendUnread s chat sender parts t).tbl u chat
                  = s.tbl u chat :=
                processAfterSendUnread_tbl_other chat sender parts t u chat
                  (Or.inl fun _ => hu_eq) s
              rw [htbl]
              exact hinv
          · rw [if_neg (fun hh : chat = c ∧ sender ≠ u => hc hh.1)]
            have htbl : (processAfterSendUnread s chat sender parts t).tbl u c
                = s.tbl u c :=
              processAfterSendUnread_tbl_other chat sender parts t u c (Or.inr (Ne.symm hc)) s
            rw [htbl]
            exact hinv

/-- C1, counterexample to the claim as stated: one message from alice is
delivered to the participants of chat c1 at time 0 and no read-acknowledgement
ever happens, yet when the counter is read seven days later its Redis key has
expired, so GetUnreadCount reports zero although exactly one message with a
sender different from bob was delivered since the last reset. -/
theorem c1_counterexample :
    (runCounter UnreadStore.init
        [.deliver "c1" "alice" ["alice", "bob"] 0]).getCount "bob" "c1" sevenDays
      ≠ specUnread "bob" "c1" [.deliver "c1" "alice" ["alice", "bob"] 0] := by
  decide

/-- C1 (amended): as long as the unread key cannot expire — all deliveries to
the chat and the read happen inside a window shorter than the seven-day TTL —
the counter read for (u, c) equals the number of messages of chat c with a
sender different from u delivered since the last read-acknowledgement, and
that count is non-negative; each qualifying delivery contributes exactly one
to it. Once a key sits seven days without an increment it expires and the
equality is lost (see the counterexample and the expiry claim). -/
theorem c1_unread_counter_matches_deliveries (u : UserID) (c : ChatID)
    (a w T : Nat) (evs : List CounterEvent) (hw : w < sevenDays) (hT : T ≤ a + w)
    (hok : ∀ e ∈ evs, eventOk u c a w e) :
    (runCounter UnreadStore.init evs).getCount u c T = specUnread u c evs ∧
      0 ≤ specUnread u c evs := by
  have hinv := runCounter_invariant u c a w hw evs UnreadStore.init 0 hok
    (Or.inl ⟨rfl, rfl⟩)
  rcases hinv with ⟨h0, htbl⟩ | ⟨hpos, d, htbl, hd⟩
  · constructor
    · show (runCounter UnreadStore.init evs).getCount u c T = specUnreadFrom u c 0 evs
      rw [h0]
      simp [UnreadStore.getCount, UnreadStore.live, htbl]
    · show (0 : Int) ≤ specUnreadFrom u c 0 evs
      omega
  · constructor
    · show (runCounter UnreadStore.init evs).getCount u c T = specUnreadFrom u c 0 evs
      have hTd : T < d := by omega
      simp [UnreadStore.getCount, UnreadStore.live, htbl, hTd]
    · show (0 : Int) ≤ specUnreadFrom u c 0 evs
      omega

/-- Witness: on the one-delivery trace inside a 100-second window the amended
C1 theorem applies and the counter read at time 50 equals the specification
count. -/
theorem c1_unread_counter_matches_deliveries_witness :
    100 < sevenDays ∧ (50 : Nat) ≤ 0 + 100 ∧
    ((runCounter UnreadStore.init
        [.deliver "c1" "alice" ["alice", "bob"] 10]).getCount "bob" "c1" 50
      = specUnread "bob" "c1" [.deliver "c1" "alice" ["alice", "bob"] 10] ∧
      0 ≤ specUnread "bob" "c1" [.deliver "c1" "alice" ["alice", "bob"] 10]) :=
  ⟨by decide, by decide,
    c1_unread_counter_matches_deliveries "bob" "c1" 0 100 50
      [.deliver "c1" "alice" ["alice", "bob"] 10] (by decide) (by decide) (by decide)⟩

/-- C10: every unread increment stores the incremented live count and stamps
the key's deadline to exactly seven days after the increment time — so each
increment sets the expiry and later increments refresh it — and once seven
days pass with no further increment the key has expired: the counter then
reads zero although no read-acknowledgement deleted it. -/
theorem c10_increment_sets_seven_day_expiry (s : UnreadStore) (u : UserID)
    (c : ChatID) (t0 t : Nat) (h : t0 + sevenDays ≤ t) :
    (s.incrExpire u c t0).tbl u c = some (s.getCount u c t0 + 1, t0 + sevenDays) ∧
    (s.incrExpire u c t0).getCount u c t = 0 := by
  refine ⟨s.incrExpire_tbl_self u c t0, ?_⟩
  have htbl := s.incrExpire_tbl_self u c t0
  have hnotlt : ¬ t < t0 + sevenDays := by omega
  simp [UnreadStore.getCount, UnreadStore.live, htbl, hnotlt]

/-- Witness: incrementing an empty store at time 0 yields the key at one with
deadline sevenDays, and a read exactly sevenDays later sees an expired key and
reports zero. -/
theorem c10_increment_sets_seven_day_expiry_witness :
    0 + sevenDays ≤ sevenDays ∧
    ((UnreadStore.init.incrExpire "u1" "c9" 0).tbl "u1" "c9"
        = some (UnreadStore.init.getCount "u1" "c9" 0 + 1, 0 + sevenDays) ∧
      (UnreadStore.init.incrExpire "u1" "c9" 0).getCount "u1" "c9" sevenDays = 0) :=
  ⟨by decide, c10_increment_sets_seven_day_expiry UnreadStore.init "u1" "c9" 0
    sevenDays (by decide)⟩

/-- A chat message row (models.Message). The Go id is a UUID string assigned
by the BeforeCreate hook and createdAt is assigned by the store at insertion;
both are abstracted as numbers drawn from the store's counter, with none for
the Go zero values of a message that has not been persisted. -/
structure MessageRec where
  id : Option Nat
  chatID : ChatID
  senderID : UserID
  content : String
  isRead : Bool
  createdAt : Option Nat
  deriving DecidableEq

/-- A queued send task (MessageTask in chat_service.go). -/
structure MessageTask where
  chatID : ChatID
  userID : UserID
  content : String
  timestamp : Nat
  deriving DecidableEq

/-- Capacity of the buffered messageQueue channel of ChatService (2000). -/
def messageQueueCap : Nat := 2000

/-- Five minutes in seconds: the TTL of a cached messages page. -/
def fiveMinutes : Nat := 5 * 60

/-- The errors SendMessage can return, in the order the checks run. -/
inductive SendError where
  | emptyContent
  | contentTooLong
  | notParticipant
  | storage
  deriving DecidableEq

/-- The error GetMessages can return. -/
inductive GetError where
  | noPermission
  deriving DecidableEq

/-- The state of the chat service and its collaborators: the chat_users rows,
the persisted messages in creation order, the id counter of the durable store,
the contents of the buffered messageQueue and processQueue channels, whether a
durable write currently succeeds, the per-chat per-page Redis message cache
(value and expiry deadline), and the unread-counter keys. -/
structure ChatServiceState where
  chatUsers : List (ChatID × UserID)
  messages : List MessageRec
  nextId : Nat
  msgQueue : List MessageTask
  processQueue : List MessageRec
  dbOk : Bool
  msgCache : ChatID → Nat → Option ((List MessageRec × Int) × Nat)
  unread : UnreadStore

/-- The permission check shared by SendMessage, GetMessages and MarkAsRead:
a chat_users row for (chatID, userID) exists. -/
def isParticipant (s : ChatServiceState) (chatID : ChatID) (userID : UserID) : Bool :=
  s.chatUsers.contains (chatID, userID)

/-- processMessageDirect: create the message row (the store assigns id and
createdAt; on failure return the storage error and do nothing else), then put
the processing task on the processQueue, and return the persisted message. -/
def processMessageDirect (s : ChatServiceState) (task : MessageTask) :
    Except SendError MessageRec × ChatServiceState :=
  let m : MessageRec :=
    { id := some s.nextId, chatID := task.chatID, senderID := task.userID,
      content := task.content, isRead := false, createdAt := some task.timestamp }
  if s.dbOk then
    (.ok m,
      { s with
          messages := s.messages ++ [m],
          nextId := s.nextId + 1,
          processQueue := s.processQueue ++ [m] })
  else
    (.error .storage, s)

/-- SendMessage of chat_service.go: validate that the content is non-empty
and at most 1000 bytes (Go len on a string counts bytes), check that the
sender has a chat_users row, then try a non-blocking send of the task to the
messageQueue: if the queue has room the call returns at once with a message
value whose id and createdAt are not assigned (the worker will create the row
later), and only when the queue is full is the message processed inline. -/
def SendMessage (s : ChatServiceState) (chatID : ChatID) (userID : UserID)
    (content : String) (now : Nat) : Except SendError MessageRec × ChatServiceState :=
  if content = "" then
    (.error .emptyContent, s)
  else if content.utf8ByteSize > 1000 then
    (.error .contentTooLong, s)
  else if !(isParticipant s chatID userID) then
    (.error .notParticipant, s)
  else if s.msgQueue.length < messageQueueCap then
    (.ok { id := none, chatID := chatID, senderID := userID, content := content,
           isRead := false, createdAt := none },
      { s with msgQueue := s.msgQueue ++ [⟨chatID, userID, content, now⟩] })
  else
    processMessageDirect s ⟨chatID, userID, content, now⟩

/-- Written from the specification's words, for comparison with SendMessage:
content is valid when it is non-empty and at most 1000 code points long. -/
def contentValidPerSpec (content : String) : Prop :=
  content ≠ "" ∧ content.length ≤ 1000

/-- The per-message update of MarkAsRead: messages of the chat whose sender is
not the reader become read; every other message is untouched. -/
def markMsgRead (chatID : ChatID) (userID : UserID) (m : MessageRec) : MessageRec :=
  if m.chatID = chatID ∧ m.senderID ≠ userID then { m with isRead := true } else m

/-- MarkAsRead of chat_service.go: update is_read on every message of the chat
with a different sender (when the durable store accepts the update; on a store
error the call returns early) and delete the unread:userID:chatID key. -/
def MarkAsRead (s : ChatServiceState) (chatID : ChatID) (userID : UserID) :
    ChatServiceState :=
  if s.dbOk then
    { s with
        messages := s.messages.map (markMsgRead chatID userID),
        unread := s.unread.del userID chatID }
  else
    s

/-- Read of the cached messages page for (chatID, page) at time t; a cache
entry whose deadline has passed reads as absent. -/
def cacheRead (s : ChatServiceState) (chatID : ChatID) (page : Nat) (t : Nat) :
    Option (List MessageRec × Int) :=
  match s.msgCache chatID page with
  | some (v, d) => if t < d then some v else none
  | none => none

/-- Write of the cached messages page for (chatID, page) at time t with the
five-minute TTL used by GetMessages. -/
def cacheWrite (s : ChatServiceState) (chatID : ChatID) (page : Nat)
    (v : List MessageRec × Int) (t : Nat) : ChatServiceState :=
  { s with
      msgCache := fun c p =>
        if c = chatID ∧ p = page then some (v, t + fiveMinutes) else s.msgCache c p }

/-- The database query of GetMessages: the messages of the chat, newest first,
offset (page-1)*limit, limit rows, reversed back for display, together with
the total count of the chat's messages. The model keeps s.messages in
creation order, so newest-first is its reverse. -/
def getMessagesPage (s : ChatServiceState) (chatID : ChatID) (page limit : Nat) :
    List MessageRec × Int :=
  let all := s.messages.filter (fun m => m.chatID == chatID)
  (((all.reverse.drop ((page - 1) * limit)).take limit).reverse, (all.length : Int))

/-- GetMessages of chat_service.go: check the chat_users row, then try the
Redis page cache — a hit returns the cached page at once with no further
action. On a miss, query the page from the store, cache the result for five
minutes, and mark the chat read for the caller (the Go code does the caching
and the read-marking in background goroutines; the model applies the completed
effects). -/
def GetMessages (s : ChatServiceState) (chatID : ChatID) (userID : UserID)
    (page limit : Nat) (now : Nat) :
    Except GetError (List MessageRec × Int) × ChatServiceState :=
  if !(isParticipant s chatID userID) then
    (.error .noPermission, s)
  else
    match cacheRead s chatID page now with
    | some v => (.ok v, s)
    | none =>
        let pg := getMessagesPage s chatID page limit
        let s1 := cacheWrite s chatID page pg now
        let s2 := MarkAsRead s1 chatID userID
        (.ok pg, s2)

/-- A base state: chat c1 has participants u1 and u2, nothing queued or
persisted, the store healthy, caches and counters empty. -/
def svc0 : ChatServiceState :=
  { chatUsers := [("c1", "u1"), ("c1", "u2")],
    messages := [],
    nextId := 1,
    msgQueue := [],
    processQueue := [],
    dbOk := true,
    msgCache := fun _ _ => none,
    unread := UnreadStore.init }

/-- The base state with its messageQueue full. -/
def svcFull : ChatServiceState :=
  { svc0 with msgQueue := List.replicate messageQueueCap ⟨"c1", "u1", "x", 0⟩ }

/-- C3, counterexample to the claim as stated: with room in the queue, a valid
send by a participant is acknowledged with success immediately, yet the
returned Message has no id (and no createdAt) and nothing has been persisted
at the time of the acknowledgement. -/
theorem c3_counterexample :
    (SendMessage svc0 "c1" "u1" "hello" 7).1
        = .ok { id := none, chatID := "c1", senderID := "u1", content := "hello",
                isRead := false, createdAt := none } ∧
    (SendMessage svc0 "c1" "u1" "hello" 7).2.messages = [] := by
  constructor <;> rfl

/-- C3 (amended): a validated, authorized send is acknowledged once the
delivery task is accepted, and the acknowledgement never depends on any
downstream delivery outcome. On the queue path the acknowledgement precedes
persistence: the task is enqueued, nothing is persisted yet, and the returned
Message carries no id or createdAt. Only on the queue-full inline path is the
message durably persisted first — id and createdAt assigned, the returned
Message carrying the assigned id — and a persistence failure there returns
the storage error with no other effect. -/
theorem c3_ack_precedes_persistence (s : ChatServiceState) (chatID : ChatID)
    (userID : UserID) (content : String) (now : Nat)
    (hne : content ≠ "") (hlen : content.utf8ByteSize ≤ 1000)
    (hp : isParticipant s chatID userID = true) :
    (s.msgQueue.length < messageQueueCap →
      SendMessage s chatID userID content now
        = (.ok { id := none, chatID := chatID, senderID := userID, content := content,
                 isRead := false, createdAt := none },
           { s with msgQueue := s.msgQueue ++ [⟨chatID, userID, content, now⟩] })) ∧
    (¬ s.msgQueue.length < messageQueueCap → s.dbOk = true →
      SendMessage s chatID userID content now
        = (.ok { id := some s.nextId, chatID := chatID, senderID := userID,
                 content := content, isRead := false, createdAt := some now },
           { s with
               messages := s.messages ++
                 [{ id := some s.nextId, chatID := chatID, senderID := userID,
                    content := content, isRead := false, createdAt := some now }],
               nextId := s.nextId + 1,
               processQueue := s.processQueue ++
                 [{ id := some s.nextId, chatID := chatID, senderID := userID,
                    content := content, isRead := false, createdAt := some now }] })) ∧
    (¬ s.msgQueue.length < messageQueueCap → s.dbOk = false →
      SendMessage s chatID userID content now = (.error .storage, s)) := by
  have hlen' : ¬ content.utf8ByteSize > 1000 := by omega
  refine ⟨fun hq => ?_, fun hq hdb => ?_, fun hq hdb => ?_⟩
  · simp [SendMessage, hne, hlen', hp, hq]
  · simp [SendMessage, hne, hlen', hp, hq, processMessageDirect, hdb]
  · simp [SendMessage, hne, hlen', hp, hq, processMessageDirect, hdb]

/-- Witness for the amended C3 theorem: the queue path at the base state and
the inline path at the full-queue state, with every hypothesis discharged. -/
theorem c3_ack_precedes_persistence_witness :
    (SendMessage svc0 "c1" "u1" "hello" 7
        = (.ok { id := none, chatID := "c1", senderID := "u1", content := "hello",
                 isRead := false, createdAt := none },
           { svc0 with msgQueue := svc0.msgQueue ++ [⟨"c1", "u1", "hello", 7⟩] })) ∧
    (SendMessage svcFull "c1" "u1" "hello" 7
        = (.ok { id := some svcFull.nextId, chatID := "c1", senderID := "u1",
                 content := "hello", isRead := false, createdAt := some 7 },
           { svcFull with
               messages := svcFull.messages ++
                 [{ id := some svcFull.nextId, chatID := "c1", senderID := "u1",
                    content := "hello", isRead := false, createdAt := some 7 }],
               nextId := svcFull.nextId + 1,
               processQueue := svcFull.processQueue ++
                 [{ id := some svcFull.nextId, chatID := "c1", senderID := "u1",
                    content := "hello", isRead := false, createdAt := some 7 }] })) :=
  ⟨(c3_ack_precedes_persistence svc0 "c1" "u1" "hello" 7 (by decide) (by decide)
      rfl).1 (by decide),
   (c3_ack_precedes_persistence svcFull "c1" "u1" "hello" 7 (by decide) (by decide)
      rfl).2.1 (by
        have h : svcFull.msgQueue.length = messageQueueCap := by
          show (List.replicate messageQueueCap
              (⟨"c1", "u1", "x", 0⟩ : MessageTask)).length = messageQueueCap
          exact List.length_replicate _ _
        omega) rfl⟩

/-- A content of 334 CJK characters: 334 code points but 1002 UTF-8 bytes. -/
def cexBigContent : String := String.mk (List.replicate 334 '一')

/-- C4, counterexample to the claim as stated: a non-empty content of 334 code
points is within the claimed 1000-code-point bound, yet SendMessage rejects it
as too long, because the Go check bounds len(content) — UTF-8 bytes, 1002 here
— not code points. -/
theorem c4_counterexample :
    contentValidPerSpec cexBigContent ∧
    (SendMessage svc0 "c1" "u1" cexBigContent 0).1 = .error .contentTooLong := by
  refine ⟨⟨by decide, ?_⟩, rfl⟩
  show (List.replicate 334 '一').length ≤ 1000
  simp

/-- C4 (amended): SendMessage validates content against a byte bound, not a
code-point bound: an empty content fails with the empty-content error and a
content of more than 1000 UTF-8 bytes fails with the too-long error, in both
cases with the state untouched — nothing persisted or enqueued; a non-empty
content of at most 1000 bytes passes validation and can only fail the later
permission or storage checks. -/
theorem c4_validation_bounds_bytes (s : ChatServiceState) (chatID : ChatID)
    (userID : UserID) (content : String) (now : Nat) :
    (content = "" →
      SendMessage s chatID userID content now = (.error .emptyContent, s)) ∧
    (content ≠ "" → 1000 < content.utf8ByteSize →
      SendMessage s chatID userID content now = (.error .contentTooLong, s)) ∧
    (content ≠ "" → content.utf8ByteSize ≤ 1000 →
      (SendMessage s chatID userID content now).1 ≠ .error .emptyContent ∧
      (SendMessage s chatID userID content now).1 ≠ .error .contentTooLong) := by
  refine ⟨fun h => ?_, fun h1 h2 => ?_, fun h1 h2 => ?_⟩
  · simp [SendMessage, h]
  · simp [SendMessage, h1, h2]
  · have h2' : ¬ content.utf8ByteSize > 1000 := by omega
    by_cases hp : isParticipant s chatID userID
    · by_cases hq : s.msgQueue.length < messageQueueCap
      · simp [SendMessage, h1, h2', hp, hq]
      · by_cases hdb : s.dbOk
        · simp [SendMessage, h1, h2', hp, hq, processMessageDirect, hdb]
        · simp [SendMessage, h1, h2', hp, hq, processMessageDirect, hdb]
    · simp [SendMessage, h1, h2', hp]

/-- Witness for the amended C4 theorem at the three kinds of content. -/
theorem c4_validation_bounds_bytes_witness :
    SendMessage svc0 "c1" "u1" "" 0 = (.error .emptyContent, svc0) ∧
    SendMessage svc0 "c1" "u1" cexBigContent 0 = (.error .contentTooLong, svc0) ∧
    ((SendMessage svc0 "c1" "u1" "hi" 0).1 ≠ .error .emptyContent ∧
      (SendMessage svc0 "c1" "u1" "hi" 0).1 ≠ .error .contentTooLong) :=
  ⟨(c4_validation_bounds_bytes svc0 "c1" "u1" "" 0).1 rfl,
   (c4_validation_bounds_bytes svc0 "c1" "u1" cexBigContent 0).2.1 (by decide) (by decide),
   (c4_validation_bounds_bytes svc0 "c1" "u1" "hi" 0).2.2 (by decide) (by decide)⟩

/-- C5, counterexample to the claim as stated: v9 is not a participant of c1,
yet a call with empty content fails with the empty-content validation error,
not the permission error — validation runs before the participant check. -/
theorem c5_counterexample :
    isParticipant svc0 "c1" "v9" = false ∧
    (SendMessage svc0 "c1" "v9" "" 0).1 = .error .emptyContent ∧
    (SendMessage svc0 "c1" "v9" "" 0).1 ≠ .error .notParticipant := by
  exact ⟨rfl, rfl, fun h => SendError.noConfusion (Except.error.inj h)⟩

/-- C5 (amended): a call whose sender is not a participant of the chat always
fails and leaves the state untouched — nothing persisted, nothing enqueued, no
counter changed; the error is the permission error whenever the content passes
validation (an invalid content is reported as the validation error instead,
since validation precedes the permission check). -/
theorem c5_nonparticipant_no_side_effect (s : ChatServiceState) (chatID : ChatID)
    (userID : UserID) (content : String) (now : Nat)
    (hp : isParticipant s chatID userID = false) :
    (SendMessage s chatID userID content now).2 = s ∧
    (∃ e, (SendMessage s chatID userID content now).1 = .error e) ∧
    (content ≠ "" → content.utf8ByteSize ≤ 1000 →
      (SendMessage s chatID userID content now).1 = .error .notParticipant) := by
  by_cases h1 : content = ""
  · exact ⟨by simp [SendMessage, h1], ⟨.emptyContent, by simp [SendMessage, h1]⟩,
      fun hne _ => absurd h1 hne⟩
  · by_cases h2 : content.utf8ByteSize > 1000
    · exact ⟨by simp [SendMessage, h1, h2],
        ⟨.contentTooLong, by simp [SendMessage, h1, h2]⟩,
        fun _ hle => by omega⟩
    · exact ⟨by simp [SendMessage, h1, h2, hp],
        ⟨.notParticipant, by simp [SendMessage, h1, h2, hp]⟩,
        fun _ _ => by simp [SendMessage, h1, h2, hp]⟩

/-- Witness for the amended C5 theorem: a non-participant with valid content
gets the permission error and the state is unchanged. -/
theorem c5_nonparticipant_no_side_effect_witness :
    isParticipant svc0 "c1" "v9" = false ∧
    ((SendMessage svc0 "c1" "v9" "hi" 0).2 = svc0 ∧
      (∃ e, (SendMessage svc0 "c1" "v9" "hi" 0).1 = .error e) ∧
      ("hi" ≠ "" → "hi".utf8ByteSize ≤ 1000 →
        (SendMessage svc0 "c1" "v9" "hi" 0).1 = .error .notParticipant)) :=
  ⟨rfl, c5_nonparticipant_no_side_effect svc0 "c1" "v9" "hi" 0 rfl⟩

/-- C6: for a validated, authorized send with the store healthy, the outcome
is decided exactly by the queue state: with free capacity the delivery task is
appended to the messageQueue and nothing else changes; with the queue full the
message is processed synchronously inline — persisted and handed to the
processQueue. In both branches the message is retained somewhere, never
silently dropped, and the branch taken is a function of the queue length. -/
theorem c6_enqueue_or_inline (s : ChatServiceState) (chatID : ChatID)
    (userID : UserID) (content : String) (now : Nat)
    (hne : content ≠ "") (hlen : content.utf8ByteSize ≤ 1000)
    (hp : isParticipant s chatID userID = true) (hdb : s.dbOk = true) :
    (s.msgQueue.length < messageQueueCap →
      (SendMessage s chatID userID content now).2
        = { s with msgQueue := s.msgQueue ++ [⟨chatID, userID, content, now⟩] }) ∧
    (¬ s.msgQueue.length < messageQueueCap →
      (SendMessage s chatID userID content now).2.msgQueue = s.msgQueue ∧
      (SendMessage s chatID userID content now).2.messages
          = s.messages ++ [{ id := some s.nextId, chatID := chatID, senderID := userID,
                             content := content, isRead := false, createdAt := some now }] ∧
      (SendMessage s chatID userID content now).2.processQueue
          = s.processQueue ++ [{ id := some s.nextId, chatID := chatID,
                                 senderID := userID, content := content,
                                 isRead := false, createdAt := some now }]) := by
  have hlen' : ¬ content.utf8ByteSize > 1000 := by omega
  refine ⟨fun hq => ?_, fun hq => ?_⟩
  · simp [SendMessage, hne, hlen', hp, hq]
  · refine ⟨?_, ?_, ?_⟩ <;>
      simp [SendMessage, hne, hlen', hp, hq, processMessageDirect, hdb]

/-- The full-queue state really has a full queue. -/
theorem svcFull_msgQueue_length : svcFull.msgQueue.length = messageQueueCap := by
  show (List.replicate messageQueueCap (⟨"c1", "u1", "x", 0⟩ : MessageTask)).length
      = messageQueueCap
  exact List.length_replicate _ _

/-- Witness for C6: the enqueue branch at the base state and the inline branch
at the full-queue state. -/
theorem c6_enqueue_or_inline_witness :
    ((SendMessage svc0 "c1" "u1" "hey" 3).2
        = { svc0 with msgQueue := svc0.msgQueue ++ [⟨"c1", "u1", "hey", 3⟩] }) ∧
    ((SendMessage svcFull "c1" "u1" "hey" 3).2.msgQueue = svcFull.msgQueue ∧
      (SendMessage svcFull "c1" "u1" "hey" 3).2.messages
          = svcFull.messages ++ [{ id := some svcFull.nextId, chatID := "c1",
                                   senderID := "u1", content := "hey", isRead := false,
                                   createdAt := some 3 }] ∧
      (SendMessage svcFull "c1" "u1" "hey" 3).2.processQueue
          = svcFull.processQueue ++ [{ id := some svcFull.nextId, chatID := "c1",
                                       senderID := "u1", content := "hey",
                                       isRead := false, createdAt := some 3 }]) :=
  ⟨(c6_enqueue_or_inline svc0 "c1" "u1" "hey" 3 (by decide) (by decide) rfl rfl).1
      (by decide),
   (c6_enqueue_or_inline svcFull "c1" "u1" "hey" 3 (by decide) (by decide) rfl rfl).2
      (by rw [svcFull_msgQueue_length]; omega)⟩

/-- The per-message read-marking is idempotent. -/
theorem markMsgRead_idem (chatID : ChatID) (userID : UserID) (m : MessageRec) :
    markMsgRead chatID userID (markMsgRead chatID userID m)
      = markMsgRead chatID userID m := by
  by_cases h : m.chatID = chatID ∧ m.senderID ≠ userID
  · simp [markMsgRead, h]
  · simp [markMsgRead, h]

/-- A message touched by the read-marking that belongs to the chat and has a
different sender reads as read afterwards. -/
theorem markMsgRead_reads (chatID : ChatID) (userID : UserID) (m : MessageRec)
    (hc : (markMsgRead chatID userID m).chatID = chatID)
    (hs : (markMsgRead chatID userID m).senderID ≠ userID) :
    (markMsgRead chatID userID m).isRead = true := by
  by_cases h : m.chatID = chatID ∧ m.senderID ≠ userID
  · simp [markMsgRead, h]
  · simp only [markMsgRead, if_neg h] at hc hs ⊢
    exact absurd ⟨hc, hs⟩ h

/-- Deleting the same unread key twice is the same as deleting it once. -/
theorem UnreadStore.del_del (s : UnreadStore) (u : UserID) (c : ChatID) :
    (s.del u c).del u c = s.del u c := by
  unfold UnreadStore.del
  congr 1
  funext u' c'
  by_cases h : u' = u ∧ c' = c
  · simp [h]
  · simp [h]

/-- C8: the read-acknowledgement is idempotent: after MarkAsRead the unread
counter of (userID, chatID) reads zero at every time, and a second consecutive
MarkAsRead is a no-op — it produces exactly the same state, so the counter is
zero after both calls. -/
theorem c8_mark_as_read_idempotent (s : ChatServiceState) (chatID : ChatID)
    (userID : UserID) (t : Nat) (hdb : s.dbOk = true) :
    (MarkAsRead s chatID userID).unread.getCount userID chatID t = 0 ∧
    MarkAsRead (MarkAsRead s chatID userID) chatID userID
      = MarkAsRead s chatID userID := by
  have hmap : ∀ l : List MessageRec,
      (l.map (markMsgRead chatID userID)).map (markMsgRead chatID userID)
        = l.map (markMsgRead chatID userID) := by
    intro l
    rw [List.map_map]
    exact List.map_congr_left fun m _ => markMsgRead_idem chatID userID m
  constructor
  · simp [MarkAsRead, hdb, UnreadStore.getCount, UnreadStore.live, UnreadStore.del]
  · simp [MarkAsRead, hdb, hmap, UnreadStore.del_del]

/-- Witness for C8 at the base state. -/
theorem c8_mark_as_read_idempotent_witness :
    svc0.dbOk = true ∧
    ((MarkAsRead svc0 "c1" "u1").unread.getCount "u1" "c1" 5 = 0 ∧
      MarkAsRead (MarkAsRead svc0 "c1" "u1") "c1" "u1" = MarkAsRead svc0 "c1" "u1") :=
  ⟨rfl, c8_mark_as_read_idempotent svc0 "c1" "u1" 5 rfl⟩

/-- On a cache miss by a participant, GetMessages returns the database page
and its final state is the cached-then-marked state. -/
theorem GetMessages_miss (s : ChatServiceState) (chatID : ChatID) (userID : UserID)
    (page limit now : Nat) (hp : isParticipant s chatID userID = true)
    (hv : cacheRead s chatID page now = none) :
    GetMessages s chatID userID page limit now
      = (.ok (getMessagesPage s chatID page limit),
         MarkAsRead (cacheWrite s chatID page (getMessagesPage s chatID page limit) now)
           chatID userID) := by
  simp [GetMessages, hp, hv]

/-- A state where user u2 sent one message in c1 that u1 has not read, u1's
unread counter for c1 is one, and the first page of c1 is cached until 300. -/
def svcC9 : ChatServiceState :=
  { svc0 with
      messages := [{ id := some 1, chatID := "c1", senderID := "u2", content := "hi",
                     isRead := false, createdAt := some 0 }],
      nextId := 2,
      msgCache := fun c p =>
        if c = "c1" ∧ p = 1 then
          some (([{ id := some 1, chatID := "c1", senderID := "u2", content := "hi",
                    isRead := false, createdAt := some 0 }], 1), 300)
        else none,
      unread := UnreadStore.init.incrExpire "u1" "c1" 0 }

/-- The same state with the page cache empty. -/
def svcC9m : ChatServiceState := { svcC9 with msgCache := fun _ _ => none }

/-- C9, counterexample to the claim as stated: a successful GetMessages that
hits the page cache returns the messages but has no read side effect at all:
the state is unchanged, the message from u2 stays unread, and u1's unread
counter still reads one. -/
theorem c9_counterexample :
    (GetMessages svcC9 "c1" "u1" 1 50 10).1
        = .ok ([{ id := some 1, chatID := "c1", senderID := "u2", content := "hi",
                  isRead := false, createdAt := some 0 }], 1) ∧
    (GetMessages svcC9 "c1" "u1" 1 50 10).2 = svcC9 ∧
    (GetMessages svcC9 "c1" "u1" 1 50 10).2.unread.getCount "u1" "c1" 10 = 1 := by
  refine ⟨rfl, rfl, by decide⟩

/-- C9 (amended): for a participant, a GetMessages served from the page cache
returns the cached page with no side effect — no message marked read, no
counter reset; only a call served from the database (with the store healthy)
both returns the page and, as its side effect, marks every message of the chat
from other senders as read and resets the unread counter of (userID, chatID)
to zero, although the caller issued no explicit read-acknowledgement. -/
theorem c9_get_messages_read_side_effect (s : ChatServiceState) (chatID : ChatID)
    (userID : UserID) (page limit now t : Nat)
    (hp : isParticipant s chatID userID = true) :
    (∀ v, cacheRead s chatID page now = some v →
      GetMessages s chatID userID page limit now = (.ok v, s)) ∧
    (cacheRead s chatID page now = none → s.dbOk = true →
      (∀ m ∈ (GetMessages s chatID userID page limit now).2.messages,
          m.chatID = chatID → m.senderID ≠ userID → m.isRead = true) ∧
      (GetMessages s chatID userID page limit now).2.unread.getCount userID chatID t
        = 0) := by
  constructor
  · intro v hv
    simp [GetMessages, hp, hv]
  · intro hv hdb
    rw [GetMessages_miss s chatID userID page limit now hp hv]
    constructor
    · intro m hm hc hs
      simp only [MarkAsRead, cacheWrite, hdb, if_true] at hm
      rcases List.mem_map.mp hm with ⟨m0, hm0, rfl⟩
      exact markMsgRead_reads chatID userID m0 hc hs
    · simp [MarkAsRead, cacheWrite, hdb, UnreadStore.getCount, UnreadStore.live,
        UnreadStore.del]

/-- Witness for the amended C9 theorem: a cache miss at the one-message state
marks the message read and zeroes the counter. -/
theorem c9_get_messages_read_side_effect_witness :
    isParticipant svcC9m "c1" "u1" = true ∧
    cacheRead svcC9m "c1" 1 10 = none ∧
    ((∀ m ∈ (GetMessages svcC9m "c1" "u1" 1 50 10).2.messages,
        m.chatID = "c1" → m.senderID ≠ "u1" → m.isRead = true) ∧
      (GetMessages svcC9m "c1" "u1" 1 50 10).2.unread.getCount "u1" "c1" 20 = 0) :=
  ⟨rfl, rfl, (c9_get_messages_read_side_effect svcC9m "c1" "u1" 1 50 10 20 rfl).2 rfl rfl⟩

/-- A websocket connection identifier on this process. -/
abbrev ConnId := Nat

/-- The connection registry of the chat controller, as HandleWebSocket keeps
it: the clients map from userID to the current connection, together with the
connections that have been upgraded and not yet closed, each with the user its
handler serves. -/
structure Registry where
  clients : UserID → Option ConnId
  openConns : List (ConnId × UserID)

/-- The empty registry. -/
def Registry.init : Registry := ⟨fun _ => none, []⟩

/-- A connection that has been upgraded and not yet closed. -/
def Registry.isOpen (s : Registry) (conn : ConnId) : Bool :=
  s.openConns.any (fun p => p.1 == conn)

/-- The registration step of HandleWebSocket: the upgrade opens a new
connection and the clients entry of the user is overwritten with it under the
mutex; the superseded connection, if any, is not closed — no code touches
it — and stays open. -/
def HandleWebSocketRegister (s : Registry) (u : UserID) (conn : ConnId) : Registry :=
  ⟨fun u' => if u' = u then some conn else s.clients u', (conn, u) :: s.openConns⟩

/-- The disconnect step of HandleWebSocket: when the read loop of a connection
ends, the deferred Close closes that connection and the clients entry of its
user is deleted unconditionally — even if the entry meanwhile holds a newer
connection of the same user. -/
def HandleWebSocketDisconnect (s : Registry) (u : UserID) (conn : ConnId) : Registry :=
  ⟨fun u' => if u' = u then none else s.clients u',
   s.openConns.filter (fun p => p.1 != conn)⟩

/-- C2, counterexample to the claim as stated: after u registers connection 1
and then connection 2, the registry maps u to connection 2, but connection 1
was never closed — it is still open, two live connections of u exist at once,
and the superseded one is leaked. -/
theorem c2_counterexample :
    ((HandleWebSocketRegister (HandleWebSocketRegister Registry.init "u" 1) "u" 2).clients
        "u" = some 2) ∧
    (HandleWebSocketRegister (HandleWebSocketRegister Registry.init "u" 1) "u" 2).isOpen 1
        = true ∧
    ((HandleWebSocketRegister (HandleWebSocketRegister Registry.init "u" 1)
        "u" 2).openConns.filter (fun p => p.2 == "u")).length = 2 := by
  refine ⟨rfl, rfl, rfl⟩

/-- C2 (amended): the clients map holds at most one registered connection per
userID by construction, and registering a second connection for a user
replaces the map entry; but the superseded connection is not closed by the
registration — it stays open alongside the new one (a leak) until its own
read loop ends. -/
theorem c2_register_supersedes_without_closing (s : Registry) (u : UserID)
    (c1 c2 : ConnId) (_hreg : s.clients u = some c1) (hopen : s.isOpen c1 = true) :
    (HandleWebSocketRegister s u c2).clients u = some c2 ∧
    (HandleWebSocketRegister s u c2).isOpen c1 = true ∧
    (HandleWebSocketRegister s u c2).isOpen c2 = true := by
  refine ⟨by simp [HandleWebSocketRegister], ?_, ?_⟩
  · simp only [HandleWebSocketRegister, Registry.isOpen, List.any_cons, Bool.or_eq_true]
    right
    exact hopen
  · simp [HandleWebSocketRegister, Registry.isOpen]

/-- Witness for the amended C2 theorem at the two-registration run. -/
theorem c2_register_supersedes_without_closing_witness :
    (HandleWebSocketRegister Registry.init "u" 1).clients "u" = some 1 ∧
    (HandleWebSocketRegister Registry.init "u" 1).isOpen 1 = true ∧
    ((HandleWebSocketRegister (HandleWebSocketRegister Registry.init "u" 1) "u" 2).clients
        "u" = some 2 ∧
      (HandleWebSocketRegister (HandleWebSocketRegister Registry.init "u" 1) "u" 2).isOpen 1
          = true ∧
      (HandleWebSocketRegister (HandleWebSocketRegister Registry.init "u" 1) "u" 2).isOpen 2
          = true) :=
  ⟨rfl, rfl,
    c2_register_supersedes_without_closing (HandleWebSocketRegister Registry.init "u" 1)
      "u" 1 2 rfl rfl⟩

/-- A hub client (Client of the websocket package): its connection and the
chat rooms it has joined. -/
structure HubClient where
  conn : ConnId
  rooms : List ChatID
  deriving DecidableEq

/-- The per-process state of the websocket hub together with the presence
entries it maintains in the shared store: the clients map, the chat-room
membership table, the health of each transport (whether a ping write to it
succeeds), the online:u keys and the online:users set. -/
structure HubState where
  clients : List (UserID × HubClient)
  roomMembers : ChatID → List UserID
  writeOk : ConnId → Bool
  onlineKey : UserID → Bool
  onlineSet : List UserID

/-- The eviction body of heartbeatChecker for one dead client: remove the user
from every chat room the client had joined, delete the clients entry, delete
the online:u key, and remove the user from the online:users set. -/
def evictHubClient (st : HubState) (u : UserID) (cl : HubClient) : HubState :=
  { clients := st.clients.filter (fun p => p.1 != u),
    roomMembers := fun c =>
      if c ∈ cl.rooms then (st.roomMembers c).filter (fun v => v != u)
      else st.roomMembers c,
    writeOk := st.writeOk,
    onlineKey := fun v => if v = u then false else st.onlineKey v,
    onlineSet := st.onlineSet.filter (fun v => v != u) }

/-- One tick of heartbeatChecker of the websocket package: ping every
registered connection and evict every client whose ping write fails. -/
def heartbeatChecker (s : HubState) : HubState :=
  s.clients.foldl
    (fun st p => if s.writeOk p.2.conn then st else evictHubClient st p.1 p.2) s

/-- IsOnline as the shared store answers it: the online:u key exists. -/
def HubState.isOnline (s : HubState) (u : UserID) : Bool :=
  s.onlineKey u

/-- The user u is fully offline in the hub state with respect to the rooms rs:
no clients entry, the online:u key absent, not in the online:users set, and in
none of the rooms rs. -/
def hubEvicted (st : HubState) (u : UserID) (rs : List ChatID) : Prop :=
  (∀ p ∈ st.clients, p.1 ≠ u) ∧ st.isOnline u = false ∧ u ∉ st.onlineSet ∧
    ∀ c ∈ rs, u ∉ st.roomMembers c

/-- Evicting a dead client makes its user fully offline for the rooms the
client had joined. -/
theorem evictHubClient_evicts (st : HubState) (u : UserID) (cl : HubClient) :
    hubEvicted (evictHubClient st u cl) u cl.rooms := by
  refine ⟨?_, ?_, ?_, ?_⟩
  · intro p hp
    have h := (List.mem_filter.mp hp).2
    simpa using h
  · simp [evictHubClient, HubState.isOnline]
  · intro hmem
    have h := (List.mem_filter.mp hmem).2
    simp at h
  · intro c hc hmem
    simp only [evictHubClient, if_pos hc] at hmem
    have h := (List.mem_filter.mp hmem).2
    simp at h

/-- Evictions only remove: a user already fully offline stays fully offline
through any further eviction. -/
theorem evictHubClient_preserves (st : HubState) (v : UserID) (cl' : HubClient)
    (u : UserID) (rs : List ChatID) (h : hubEvicted st u rs) :
    hubEvicted (evictHubClient st v cl') u rs := by
  obtain ⟨h1, h2, h3, h4⟩ := h
  refine ⟨?_, ?_, ?_, ?_⟩
  · intro p hp
    exact h1 p (List.mem_filter.mp hp).1
  · simp only [evictHubClient, HubState.isOnline]
    by_cases hv : u = v
    · simp [hv]
    · simp only [if_neg hv]
      exact h2
  · intro hmem
    exact h3 (List.mem_filter.mp hmem).1
  · intro c hc hmem
    by_cases hcr : c ∈ cl'.rooms
    · simp only [evictHubClient, if_pos hcr] at hmem
      exact h4 c hc (List.mem_filter.mp hmem).1
    · simp only [evictHubClient, if_neg hcr] at hmem
      exact h4 c hc hmem

/-- The sweep fold preserves full offline-ness of a user. -/
theorem heartbeatFold_preserves (wOk : ConnId → Bool) (u : UserID) (rs : List ChatID) :
    ∀ (l : List (UserID × HubClient)) (st : HubState), hubEvicted st u rs →
      hubEvicted
        (l.foldl (fun st p => if wOk p.2.conn then st else evictHubClient st p.1 p.2) st)
        u rs := by
  intro l
  induction l with
  | nil => intro st h; exact h
  | cons p ps ih =>
      intro st h
      simp only [List.foldl_cons]
      apply ih
      by_cases hw : wOk p.2.conn = true
      · rw [if_pos hw]; exact h
      · rw [if_neg hw]; exact evictHubClient_preserves st p.1 p.2 u rs h

/-- The sweep fold fully evicts every listed client whose write fails. -/
theorem heartbeatFold_evicts (wOk : ConnId → Bool) (u : UserID) (cl : HubClient)
    (hdead : wOk cl.conn = false) :
    ∀ (l : List (UserID × HubClient)) (st : HubState), (u, cl) ∈ l →
      hubEvicted
        (l.foldl (fun st p => if wOk p.2.conn then st else evictHubClient st p.1 p.2) st)
        u cl.rooms := by
  intro l
  induction l with
  | nil => intro st h; cases h
  | cons p ps ih =>
      intro st hmem
      simp only [List.foldl_cons]
      rcases List.mem_cons.mp hmem with heq | htail
      · subst heq
        rw [if_neg (by simp [hdead])]
        exact heartbeatFold_preserves wOk u cl.rooms ps _ (evictHubClient_evicts st u cl)
      · exact ih _ htail

/-- C7: on a liveness-sweep tick every registered connection is pinged, and a
client whose ping write fails is evicted in that very tick: its clients entry
is gone, it is removed from every chat room it had joined, its online:u key is
deleted — so IsOnline answers false — and it is removed from the online:users
set, so the online-users listing no longer reports it. -/
theorem c7_dead_connection_fully_evicted (s : HubState) (u : UserID) (cl : HubClient)
    (hmem : (u, cl) ∈ s.clients) (hdead : s.writeOk cl.conn = false) :
    (∀ p ∈ (heartbeatChecker s).clients, p.1 ≠ u) ∧
    (heartbeatChecker s).isOnline u = false ∧
    u ∉ (heartbeatChecker s).onlineSet ∧
    (∀ c ∈ cl.rooms, u ∉ (heartbeatChecker s).roomMembers c) :=
  heartbeatFold_evicts s.writeOk u cl hdead s.clients s hmem

/-- A hub with one registered client for u9 on a dead transport: u9 joined
room c1, holds an online key and is in the online set. -/
def hub0 : HubState :=
  { clients := [("u9", ⟨5, ["c1"]⟩)],
    roomMembers := fun c => if c = "c1" then ["u9"] else [],
    writeOk := fun _ => false,
    onlineKey := fun v => v == "u9",
    onlineSet := ["u9"] }

/-- Witness for C7 at the one-client hub. -/
theorem c7_dead_connection_fully_evicted_witness :
    ("u9", (⟨5, ["c1"]⟩ : HubClient)) ∈ hub0.clients ∧
    hub0.writeOk 5 = false ∧
    ((∀ p ∈ (heartbeatChecker hub0).clients, p.1 ≠ "u9") ∧
      (heartbeatChecker hub0).isOnline "u9" = false ∧
      "u9" ∉ (heartbeatChecker hub0).onlineSet ∧
      (∀ c ∈ (⟨5, ["c1"]⟩ : HubClient).rooms,
        "u9" ∉ (heartbeatChecker hub0).roomMembers c)) :=
  ⟨by decide, rfl, c7_dead_connection_fully_evicted hub0 "u9" ⟨5, ["c1"]⟩ (by decide) rfl⟩

end BookCycle
